import Mathlib

/-!
Verification of the LLMs.txt generator (src/src/app/page.tsx).

The page keeps form state (site URL, contact, per-agent allow map), and a
generator effect rebuilds the output text from that state.  We embed the
catalog `llmList`, the settings map, the toggle handler, the line generator
of the effect body, and the event-driven state machine of the component.
-/

/-- Characters stripped by the JS `String.prototype.trim` on the inputs this
page sees (space, tab, CR, LF). -/
def trimChars (l : List Char) : List Char :=
  ((l.dropWhile Char.isWhitespace).reverse.dropWhile Char.isWhitespace).reverse

/-- Embedding of JS `s.trim()`. -/
def jsTrim (s : String) : String := ⟨trimChars s.data⟩

/-- The fixed agent catalog `llmList` with each agent's `defaultAllow`. -/
def llmList : List (String × Bool) :=
  [("OpenAI", true), ("Perplexity", true), ("ClaudeBot", false),
   ("Google-Extended", false), ("CCBot", false)]

/-- The `settings` record: a lookup from agent name to stored boolean.
`none` models a key that is absent from the JS object (`undefined`). -/
abbrev Settings := String → Option Bool

/-- The `useState` initializer: `Object.fromEntries(llmList.map ...)`. -/
def defaultSettings : Settings := fun n =>
  (llmList.find? (fun e => e.1 == n)).map (fun e => e.2)

/-- `toggleSetting`: `setSettings((prev) => ({ ...prev, [name]: !prev[name] }))`.
JS `!prev[name]` coerces a missing key (`undefined`) to `true`. -/
def toggleSetting (name : String) (prev : Settings) : Settings :=
  fun n => if n = name then some (!((prev name).getD false)) else prev n

/-- `const urlDisplay = siteUrl.trim() || "your site"`; the empty string is
the only falsy string. -/
def urlDisplay (siteUrl : String) : String :=
  if jsTrim siteUrl = "" then "your site" else jsTrim siteUrl

/-- The policy line pushed for one agent: `allow ? "Allow: /" : "Disallow: /"`
where `allow = settings[name]` and `undefined` is falsy. -/
def pol (settings : Settings) (n : String) : String :=
  if (settings n).getD false then "Allow: /" else "Disallow: /"

/-- The three lines pushed by the `llmList.forEach` body for one entry. -/
def agentBlock (settings : Settings) (e : String × Bool) : List String :=
  ["", "User-Agent: " ++ e.1, pol settings e.1]

/-- The lines pushed by the `if (contactTrim)` branch. -/
def contactTail (contact : String) : List String :=
  if jsTrim contact = "" then [] else ["", "# Contact: " ++ jsTrim contact]

/-- The `lines` array built by the generator effect, in push order. -/
def generateLines (siteUrl contact : String) (settings : Settings) : List String :=
  ["# LLMs.txt generated for " ++ urlDisplay siteUrl, "User-Agent: *", "Disallow: /"]
    ++ llmList.flatMap (agentBlock settings)
    ++ contactTail contact

/-- JS `lines.join("\n")`. -/
def joinLines : List String → String
  | [] => ""
  | [x] => x
  | x :: y :: rest => x ++ "\n" ++ joinLines (y :: rest)

/-- The generated content: `lines.join("\n")` over the pushed lines. -/
def generateContent (siteUrl contact : String) (settings : Settings) : String :=
  joinLines (generateLines siteUrl contact settings)

/-- Component state: the five `useState` cells. -/
structure AppState where
  siteUrl : String
  contact : String
  settings : Settings
  generatedContent : String
  copied : Bool

/-- User-visible events: the two text inputs, a checkbox toggle, and a copy
attempt whose clipboard write succeeded (`true`) or threw (`false`). -/
inductive Event where
  | setSiteUrl (v : String)
  | setContact (v : String)
  | toggle (name : String)
  | copy (ok : Bool)

/-- The generator `useEffect`: recompute the content and reset `copied`. -/
def regen (s : AppState) : AppState :=
  { s with generatedContent := generateContent s.siteUrl s.contact s.settings
           copied := false }

/-- One event step.  Input events mutate their cell and the effect re-runs
synchronously; `handleCopy` only sets `copied` (to `true` on success, and in
the catch branch to `false`), touching nothing else. -/
def step : AppState → Event → AppState
  | s, .setSiteUrl v => regen { s with siteUrl := v }
  | s, .setContact v => regen { s with contact := v }
  | s, .toggle n => regen { s with settings := toggleSetting n s.settings }
  | s, .copy ok => { s with copied := ok }

/-- Mount-time state: `useState` initial values, then the effect runs once. -/
def initState : AppState :=
  regen { siteUrl := "", contact := "", settings := defaultSettings,
          generatedContent := "", copied := false }

/-- Run a sequence of events from the mounted page. -/
def run (events : List Event) : AppState := events.foldl step initState

/-- Fold a toggle history over a settings map. -/
def applyToggles (names : List String) (st : Settings) : Settings :=
  names.foldl (fun m n => toggleSetting n m) st

/-- The generator lines, written out for the concrete five-entry catalog. -/
theorem generateLines_eq (s c : String) (st : Settings) :
    generateLines s c st =
      ["# LLMs.txt generated for " ++ urlDisplay s, "User-Agent: *", "Disallow: /",
       "", "User-Agent: OpenAI", pol st "OpenAI",
       "", "User-Agent: Perplexity", pol st "Perplexity",
       "", "User-Agent: ClaudeBot", pol st "ClaudeBot",
       "", "User-Agent: Google-Extended", pol st "Google-Extended",
       "", "User-Agent: CCBot", pol st "CCBot"] ++ contactTail c := rfl

/-- C1: with empty site URL, empty contact and the catalog defaults the
generator emits exactly the 18-line example document: header, deny-all
block, then one block per agent in catalog order with the default
Allow/Disallow line, and no contact line. -/
theorem C1_default_output :
    generateContent "" "" defaultSettings =
      "# LLMs.txt generated for your site\nUser-Agent: *\nDisallow: /\n\nUser-Agent: OpenAI\nAllow: /\n\nUser-Agent: Perplexity\nAllow: /\n\nUser-Agent: ClaudeBot\nDisallow: /\n\nUser-Agent: Google-Extended\nDisallow: /\n\nUser-Agent: CCBot\nDisallow: /" := by
  set_option maxRecDepth 8000 in decide

/-- Two maps that agree on every looked-up allow bit generate the same lines. -/
theorem generateLines_congr (s c : String) (st1 st2 : Settings)
    (h : ∀ n, (st1 n).getD false = (st2 n).getD false) :
    generateLines s c st1 = generateLines s c st2 := by
  rw [generateLines_eq, generateLines_eq]
  simp only [pol, h]

/-- C8: the copy handler, with the clipboard outcome made explicit, sets the
copied indicator to `true` on success and `false` in the catch branch, and in
both branches leaves the site URL, the contact, the policy mapping and the
generated text untouched. -/
theorem C8_copy_sets_only_copied (s : AppState) (ok : Bool) :
    (step s (.copy ok)).copied = ok ∧
    (step s (.copy ok)).siteUrl = s.siteUrl ∧
    (step s (.copy ok)).contact = s.contact ∧
    (step s (.copy ok)).settings = s.settings ∧
    (step s (.copy ok)).generatedContent = s.generatedContent :=
  ⟨rfl, rfl, rfl, rfl, rfl⟩

/-- C9: every regeneration step (any site-URL edit, contact edit, or toggle)
resets the copied indicator to `false`; hence in any reachable state the
indicator is `true` only when the very last event was a successful copy,
i.e. no input changed after the last successful copy. -/
theorem C9_copied_only_after_copy :
    (∀ (s : AppState) (v : String), (step s (.setSiteUrl v)).copied = false) ∧
    (∀ (s : AppState) (v : String), (step s (.setContact v)).copied = false) ∧
    (∀ (s : AppState) (n : String), (step s (.toggle n)).copied = false) ∧
    (∀ t : List Event, (run t).copied = true →
      ∃ t' : List Event, t = t' ++ [Event.copy true]) := by
  refine ⟨fun s v => rfl, fun s v => rfl, fun s n => rfl, fun t => ?_⟩
  induction t using List.reverseRecOn with
  | nil => intro h; exact absurd h (by decide)
  | append_singleton ts e ih =>
    intro h
    rw [run, List.foldl_append] at h
    cases e with
    | setSiteUrl v => exact absurd h (by simp [step, regen])
    | setContact v => exact absurd h (by simp [step, regen])
    | toggle n => exact absurd h (by simp [step, regen])
    | copy ok =>
      cases ok with
      | false => exact absurd h (by simp [step])
      | true => exact ⟨ts, rfl⟩

/-- C9 witness: after the trace consisting of one successful copy the
indicator is `true`, and the theorem then exhibits that trace as ending in
the successful copy. -/
theorem C9_copied_only_after_copy_witness :
    ∃ t' : List Event, [Event.copy true] = t' ++ [Event.copy true] :=
  C9_copied_only_after_copy.2.2.2 [Event.copy true] rfl

/-- C7: toggling the same agent twice restores its stored value whenever the
mapping has a value for it, and for every mapping (present key or not) the
regenerated text after a double toggle equals the original text. -/
theorem C7_double_toggle_id (s c : String) (st : Settings) (n : String) :
    (∀ b : Bool, st n = some b →
      toggleSetting n (toggleSetting n st) n = st n) ∧
    generateContent s c (toggleSetting n (toggleSetting n st)) =
      generateContent s c st := by
  constructor
  · intro b hb
    simp [toggleSetting, hb]
  · unfold generateContent
    rw [generateLines_congr s c _ st]
    intro m
    by_cases hm : m = n
    · subst hm
      simp [toggleSetting]
    · simp [toggleSetting, hm]

/-- C7 witness: at the catalog defaults, double-toggling ClaudeBot restores
its stored `false` and the full generated text. -/
theorem C7_double_toggle_id_witness :
    toggleSetting "ClaudeBot" (toggleSetting "ClaudeBot" defaultSettings) "ClaudeBot"
      = defaultSettings "ClaudeBot" ∧
    generateContent "" "" (toggleSetting "ClaudeBot" (toggleSetting "ClaudeBot" defaultSettings)) =
      generateContent "" "" defaultSettings :=
  ⟨(C7_double_toggle_id "" "" defaultSettings "ClaudeBot").1 false (by decide),
   (C7_double_toggle_id "" "" defaultSettings "ClaudeBot").2⟩

/-- C3: for any inputs, any starting mapping and any toggle history, the
lines after the deny-all block are exactly one block per catalog agent, in
the fixed catalog order, each block a blank line, the agent's name line and
its current Allow/Disallow policy line, followed only by the contact tail. -/
theorem C3_agent_blocks_in_catalog_order (s c : String) (st : Settings)
    (names : List String) :
    (generateLines s c (applyToggles names st)).drop 3 =
      ["", "User-Agent: OpenAI", pol (applyToggles names st) "OpenAI",
       "", "User-Agent: Perplexity", pol (applyToggles names st) "Perplexity",
       "", "User-Agent: ClaudeBot", pol (applyToggles names st) "ClaudeBot",
       "", "User-Agent: Google-Extended", pol (applyToggles names st) "Google-Extended",
       "", "User-Agent: CCBot", pol (applyToggles names st) "CCBot"]
        ++ contactTail c := by
  rw [generateLines_eq]
  rfl

/-- Looking up any other name in a toggled map is unchanged. -/
theorem toggleSetting_ne (st : Settings) (n m : String) (hm : m ≠ n) :
    toggleSetting n st m = st m := by
  simp only [toggleSetting]
  exact if_neg hm

/-- Toggling one name leaves the policy line of any other name unchanged. -/
theorem pol_toggle_ne (st : Settings) (n m : String) (hm : m ≠ n) :
    pol (toggleSetting n st) m = pol st m := by
  unfold pol
  rw [toggleSetting_ne st n m hm]

/-- Toggling a name always flips its policy line. -/
theorem pol_toggle_self (st : Settings) (n : String) :
    pol (toggleSetting n st) n ≠ pol st n := by
  have hself : toggleSetting n st n = some (!((st n).getD false)) := by
    simp [toggleSetting]
  cases hb : (st n).getD false <;> simp [pol, hself, hb]

/-- C10: the generator is total on every mapping; when the mapping has no
value for a catalog agent, the lookup yields nothing, `undefined` is falsy,
and that agent's policy line is `Disallow: /`. -/
theorem C10_absent_key_disallow (s c : String) (st : Settings)
    (k : Fin llmList.length) (h : st (llmList.get k).1 = none) :
    (generateLines s c st)[5 + 3 * k.val]? = some "Disallow: /" := by
  obtain ⟨kv, hk⟩ := k
  have hk5 : kv < 5 := by simpa [llmList] using hk
  interval_cases kv <;> simp [llmList, List.get] at h <;>
    simp [generateLines_eq, pol, h, contactTail]

/-- C10 witness: on the everywhere-undefined mapping, ClaudeBot (catalog
index 2) gets the `Disallow: /` line. -/
theorem C10_absent_key_disallow_witness :
    (generateLines "" "" (fun _ => none))[11]? = some "Disallow: /" :=
  C10_absent_key_disallow "" "" (fun _ => none) ⟨2, by decide⟩ rfl

/-- C6: toggling catalog agent `k` flips only that agent's stored boolean —
every other name's entry is unchanged — and the regenerated line list is the
old one with exactly the one policy line of agent `k` replaced (by a
different line). -/
theorem C6_toggle_changes_one_line (s c : String) (st : Settings)
    (k : Fin llmList.length) :
    (∀ m : String, m ≠ (llmList.get k).1 →
      toggleSetting (llmList.get k).1 st m = st m) ∧
    pol (toggleSetting (llmList.get k).1 st) (llmList.get k).1 ≠
      pol st (llmList.get k).1 ∧
    generateLines s c (toggleSetting (llmList.get k).1 st) =
      (generateLines s c st).set (5 + 3 * k.val)
        (pol (toggleSetting (llmList.get k).1 st) (llmList.get k).1) := by
  refine ⟨fun m hm => toggleSetting_ne st _ m hm, pol_toggle_self st _, ?_⟩
  obtain ⟨kv, hk⟩ := k
  have hk5 : kv < 5 := by simpa [llmList] using hk
  interval_cases kv <;>
    simp [generateLines_eq, List.set, pol_toggle_ne, agentBlock, llmList, List.get]

/-- C6 witness: at the defaults, toggling ClaudeBot (catalog index 2) leaves
the other agents' entries alone, flips its own line, and rewrites exactly
line 11 of the generated line list. -/
theorem C6_toggle_changes_one_line_witness :
    ("OpenAI" ≠ (llmList.get ⟨2, by decide⟩).1) ∧
    (toggleSetting (llmList.get ⟨2, by decide⟩).1 defaultSettings "OpenAI" =
      defaultSettings "OpenAI") ∧
    generateLines "" "" (toggleSetting (llmList.get ⟨2, by decide⟩).1 defaultSettings) =
      (generateLines "" "" defaultSettings).set 11
        (pol (toggleSetting (llmList.get ⟨2, by decide⟩).1 defaultSettings)
          (llmList.get ⟨2, by decide⟩).1) :=
  ⟨by decide,
   (C6_toggle_changes_one_line "" "" defaultSettings ⟨2, by decide⟩).1 "OpenAI" (by decide),
   (C6_toggle_changes_one_line "" "" defaultSettings ⟨2, by decide⟩).2.2⟩

/-- String append acts as append on the underlying character lists. -/
theorem strDataAppend (a b : String) : (a ++ b).data = a.data ++ b.data := rfl

/-- Strings with equal character lists are equal. -/
theorem strExt (a b : String) (h : a.data = b.data) : a = b := by
  cases a
  cases b
  exact congrArg String.mk h

/-- A nonempty string has a nonempty character list. -/
theorem strNeNil (x : String) (h : x ≠ "") : x.data ≠ [] := by
  intro hd
  exact h (strExt x "" hd)

/-- Left factor nonempty makes an appended string nonempty. -/
theorem strAppend_ne_empty_left (a b : String) (h : a ≠ "") : a ++ b ≠ "" := by
  intro he
  have := congrArg String.data he
  rw [strDataAppend] at this
  exact List.append_ne_nil_of_left_ne_nil (strNeNil a h) b.data (by simpa using this)

/-- Unfolding of the join on a list with at least two lines. -/
theorem joinLines_cons (x y : String) (rest : List String) :
    joinLines (x :: y :: rest) = x ++ "\n" ++ joinLines (y :: rest) := rfl

/-- Character-list form of the join on a list with at least two lines. -/
theorem joinLines_cons_data (x y : String) (rest : List String) :
    (joinLines (x :: y :: rest)).data = x.data ++ '\n' :: (joinLines (y :: rest)).data := by
  rw [joinLines_cons, strDataAppend, strDataAppend]
  simp

/-- C2: every generated text starts with the header line for the trimmed
site URL (or the fallback text for an empty trimmed URL), immediately
followed by the deny-all lines `User-Agent: *` and `Disallow: /`: the first
three generated lines are exactly those, and the whole text has them as a
prefix. -/
theorem C2_starts_with_header_and_denyall (s c : String) (st : Settings) :
    (generateLines s c st).take 3 =
      ["# LLMs.txt generated for " ++ urlDisplay s, "User-Agent: *", "Disallow: /"] ∧
    ∃ rest : String, generateContent s c st =
      "# LLMs.txt generated for " ++ urlDisplay s ++
        "\nUser-Agent: *\nDisallow: /\n" ++ rest := by
  constructor
  · rw [generateLines_eq]
    rfl
  · refine ⟨joinLines ("" :: "User-Agent: OpenAI" :: pol st "OpenAI" ::
      "" :: "User-Agent: Perplexity" :: pol st "Perplexity" ::
      "" :: "User-Agent: ClaudeBot" :: pol st "ClaudeBot" ::
      "" :: "User-Agent: Google-Extended" :: pol st "Google-Extended" ::
      "" :: "User-Agent: CCBot" :: pol st "CCBot" :: contactTail c), ?_⟩
    apply strExt
    rw [generateContent, generateLines_eq]
    simp only [List.cons_append, List.nil_append]
    rw [joinLines_cons_data, joinLines_cons_data, joinLines_cons_data]
    simp only [strDataAppend]
    simp [List.append_assoc]

/-- A contact line always starts with the characters of the contact marker. -/
theorem take3_contact (x : String) :
    ("# Contact: " ++ x).data.take 3 = ['#', ' ', 'C'] := by
  rw [strDataAppend]
  rfl

/-- The header line always starts with the generator marker, whatever the
trimmed site URL is. -/
theorem take3_header (u : String) :
    ("# LLMs.txt generated for " ++ u).data.take 3 = ['#', ' ', 'L'] := by
  rw [strDataAppend]
  rfl

/-- A line whose first three characters differ from the contact marker is
not a contact line. -/
theorem not_contact_of_take3 (l : String) (h : l.data.take 3 ≠ ['#', ' ', 'C']) :
    ¬ ∃ x : String, l = "# Contact: " ++ x := by
  rintro ⟨x, rfl⟩
  exact h (take3_contact x)

/-- The header line is never a contact line. -/
theorem not_contact_header (u : String) :
    ¬ ∃ x : String, "# LLMs.txt generated for " ++ u = "# Contact: " ++ x :=
  not_contact_of_take3 _ (by rw [take3_header]; decide)

/-- A policy line is never a contact line. -/
theorem not_contact_pol (st : Settings) (n : String) :
    ¬ ∃ x : String, pol st n = "# Contact: " ++ x := by
  apply not_contact_of_take3
  unfold pol
  split <;> decide

/-- None of the eighteen fixed-position generator lines is a contact line. -/
theorem no_contact_in_head (s : String) (st : Settings) (l : String)
    (hl : l ∈ ["# LLMs.txt generated for " ++ urlDisplay s, "User-Agent: *", "Disallow: /",
       "", "User-Agent: OpenAI", pol st "OpenAI",
       "", "User-Agent: Perplexity", pol st "Perplexity",
       "", "User-Agent: ClaudeBot", pol st "ClaudeBot",
       "", "User-Agent: Google-Extended", pol st "Google-Extended",
       "", "User-Agent: CCBot", pol st "CCBot"]) :
    ¬ ∃ x : String, l = "# Contact: " ++ x := by
  simp only [List.mem_cons, List.not_mem_nil, or_false] at hl
  rcases hl with rfl | rfl | rfl | rfl | rfl | rfl | rfl | rfl | rfl | rfl | rfl | rfl |
    rfl | rfl | rfl | rfl | rfl | rfl <;>
    first
      | exact not_contact_header (urlDisplay s)
      | exact not_contact_pol st _
      | exact not_contact_of_take3 _ (by decide)

/-- C4: when the trimmed contact is empty no generated line is a
`# Contact:` line; when it is non-empty the generated lines end with a blank
line followed by the single line `# Contact: <trimmed contact>`, and no
earlier line is a contact line. -/
theorem C4_contact_line (s c : String) (st : Settings) :
    (jsTrim c = "" →
      ∀ l ∈ generateLines s c st, ¬ ∃ x : String, l = "# Contact: " ++ x) ∧
    (jsTrim c ≠ "" →
      ∃ pre : List String,
        generateLines s c st = pre ++ ["", "# Contact: " ++ jsTrim c] ∧
        ∀ l ∈ pre, ¬ ∃ x : String, l = "# Contact: " ++ x) := by
  constructor
  · intro hct l hl
    rw [generateLines_eq, contactTail, if_pos hct, List.append_nil] at hl
    exact no_contact_in_head s st l hl
  · intro hct
    refine ⟨["# LLMs.txt generated for " ++ urlDisplay s, "User-Agent: *", "Disallow: /",
       "", "User-Agent: OpenAI", pol st "OpenAI",
       "", "User-Agent: Perplexity", pol st "Perplexity",
       "", "User-Agent: ClaudeBot", pol st "ClaudeBot",
       "", "User-Agent: Google-Extended", pol st "Google-Extended",
       "", "User-Agent: CCBot", pol st "CCBot"], ?_, ?_⟩
    · rw [generateLines_eq, contactTail, if_neg hct]
    · exact no_contact_in_head s st

/-- C4 witness: with empty contact the deny-all line (a generated line) is
not a contact line, and with contact `" a@b.com "` the generated lines end
in a blank line plus the single trimmed contact line. -/
theorem C4_contact_line_witness :
    (¬ ∃ x : String, "User-Agent: *" = "# Contact: " ++ x) ∧
    (∃ pre : List String,
      generateLines "" " a@b.com " defaultSettings =
        pre ++ ["", "# Contact: " ++ jsTrim " a@b.com "] ∧
      ∀ l ∈ pre, ¬ ∃ x : String, l = "# Contact: " ++ x) :=
  ⟨(C4_contact_line "" "" defaultSettings).1 rfl "User-Agent: *" (by decide),
   (C4_contact_line "" " a@b.com " defaultSettings).2 (by decide)⟩

/-- Scanner over a character list: `nlRunOk k l` is `true` exactly when,
starting with a pending run of `k` newline characters, the list never
reaches three consecutive newlines. -/
def nlRunOk : Nat → List Char → Bool
  | _, [] => true
  | k, ch :: rest =>
    if ch = '\n' then decide (k + 1 < 3) && nlRunOk (k + 1) rest
    else nlRunOk 0 rest

/-- A newline-free character list passes the scanner from any start run. -/
theorem nlRunOk_noNL (l : List Char) (h : '\n' ∉ l) (k : Nat) :
    nlRunOk k l = true := by
  induction l generalizing k with
  | nil => rfl
  | cons ch rest ih =>
    have hch : ¬ (ch = '\n') := fun hc => h (by simp [hc])
    simp only [nlRunOk, if_neg hch]
    exact ih (fun hm => h (List.mem_cons_of_mem _ hm)) 0

/-- Scanning a nonempty newline-free block resets the pending run. -/
theorem nlRunOk_scan (x : List Char) (hx : x ≠ []) (hnl : '\n' ∉ x)
    (r : List Char) (k : Nat) : nlRunOk k (x ++ r) = nlRunOk 0 r := by
  induction x generalizing k with
  | nil => exact absurd rfl hx
  | cons ch rest ih =>
    have hch : ¬ (ch = '\n') := fun hc => hnl (by simp [hc])
    rcases eq_or_ne rest [] with hr | hr
    · subst hr
      simp only [List.cons_append, List.nil_append, nlRunOk, if_neg hch]
      rfl
    · simp only [List.cons_append, nlRunOk, if_neg hch]
      exact ih hr (fun hm => hnl (List.mem_cons_of_mem _ hm)) 0

/-- A character list containing three consecutive newlines fails the
scanner from any start run. -/
theorem nlRunOk_triple (a : List Char) (k : Nat) (b : List Char) :
    nlRunOk k (a ++ '\n' :: '\n' :: '\n' :: b) = false := by
  induction a generalizing k with
  | nil =>
    have h3 : ¬ (k + 1 + 1 + 1 < 3) := by omega
    by_cases h1 : k + 1 < 3 <;> by_cases h2 : k + 1 + 1 < 3 <;>
      simp [nlRunOk, h1, h2, h3]
  | cons ch rest ih =>
    by_cases hch : ch = '\n'
    · subst hch
      simp [nlRunOk, ih]
    · simp [nlRunOk, hch, ih]

/-- If the scanner passes from run zero, the list has no `"\n\n\n"` infix. -/
theorem not_triple_infix (l : List Char) (h : nlRunOk 0 l = true) :
    ¬ List.IsInfix ['\n', '\n', '\n'] l := by
  rintro ⟨a, b, hab⟩
  have h2 : nlRunOk 0 (a ++ '\n' :: '\n' :: '\n' :: b) = true := by
    rw [← hab] at h
    simpa [List.append_assoc] using h
  rw [nlRunOk_triple] at h2
  exact absurd h2 (by decide)

/-- Joining newline-free lines with no two adjacent blank lines never
creates three consecutive newlines: the scanner passes from any pending run
of at most one, or any run when the first line is not blank. -/
theorem nlRunOk_joinLines (L : List String)
    (hnl : ∀ l ∈ L, '\n' ∉ l.data)
    (hch : List.Chain' (fun a b => a ≠ "" ∨ b ≠ "") L) :
    ∀ k : Nat, (k ≤ 1 ∨ L.head? ≠ some "") →
      nlRunOk k (joinLines L).data = true := by
  induction L with
  | nil => intro k _; rfl
  | cons x rest ih =>
    cases rest with
    | nil =>
      intro k _
      exact nlRunOk_noNL x.data (hnl x (by simp)) k
    | cons y rest2 =>
      intro k hk
      rw [joinLines_cons_data]
      have htail : ∀ l ∈ y :: rest2, '\n' ∉ l.data :=
        fun l hl => hnl l (List.mem_cons_of_mem _ hl)
      have hchy : List.Chain' (fun a b => a ≠ "" ∨ b ≠ "") (y :: rest2) :=
        (List.chain'_cons.mp hch).2
      by_cases hx : x = ""
      · subst hx
        have hk1 : k ≤ 1 := by
          rcases hk with h | h
          · exact h
          · exact absurd rfl h
        have hy : y ≠ "" := by
          rcases (List.chain'_cons.mp hch).1 with h | h
          · exact absurd rfl h
          · exact h
        have hd : ("" : String).data = ([] : List Char) := rfl
        rw [hd, List.nil_append]
        have h1 : decide (k + 1 < 3) = true := by
          simp only [decide_eq_true_eq]
          omega
        simp only [nlRunOk, if_pos rfl, h1, Bool.true_and]
        exact ih htail hchy (k + 1) (Or.inr (by simpa using hy))
      · rw [nlRunOk_scan x.data (strNeNil x hx) (hnl x (by simp))]
        have h1 : decide (0 + 1 < 3) = true := by decide
        simp only [nlRunOk, if_pos rfl, h1, Bool.true_and]
        exact ih htail hchy 1 (Or.inl (by omega))

/-- The head of a `dropWhile` result never satisfies the dropped predicate. -/
theorem dropWhile_head_not (p : Char → Bool) :
    ∀ (l : List Char) (a : Char), (l.dropWhile p).head? = some a → p a = false := by
  intro l
  induction l with
  | nil => intro a h; simp [List.dropWhile] at h
  | cons ch t ih =>
    intro a h
    by_cases hc : p ch = true
    · rw [List.dropWhile_cons_of_pos hc] at h
      exact ih a h
    · rw [List.dropWhile_cons_of_neg hc] at h
      simp only [List.head?_cons, Option.some.injEq] at h
      subst h
      simpa using hc

/-- The last character of a trimmed string is never whitespace. -/
theorem jsTrim_getLast_not_ws (s : String) (a : Char)
    (ha : (jsTrim s).data.getLast? = some a) : a.isWhitespace = false := by
  have hd : (jsTrim s).data =
      ((s.data.dropWhile Char.isWhitespace).reverse.dropWhile Char.isWhitespace).reverse := rfl
  rw [hd, List.getLast?_reverse] at ha
  exact dropWhile_head_not Char.isWhitespace _ a ha

/-- Joining lines that end with a nonempty line keeps that line's last
character as the last character of the text. -/
theorem joinLines_getLast (x : String) (hx : x.data ≠ []) :
    ∀ L : List String, (joinLines (L ++ [x])).data.getLast? = x.data.getLast? := by
  have hsome : x.data.getLast?.isSome := List.getLast?_isSome.mpr hx
  intro L
  induction L with
  | nil => rfl
  | cons a L ih =>
    cases L with
    | nil =>
      rw [show (([a] ++ [x] : List String)) = a :: x :: [] from rfl, joinLines_cons_data]
      rw [List.getLast?_append_of_ne_nil _ (by simp)]
      rw [show ('\n' :: (joinLines [x]).data) = ['\n'] ++ (joinLines [x]).data from rfl]
      exact List.getLast?_append_of_ne_nil _ hx
    | cons b L2 =>
      rw [show ((a :: b :: L2) ++ [x] : List String) = a :: b :: (L2 ++ [x]) from rfl]
      rw [joinLines_cons_data]
      have ih2 : (joinLines (b :: (L2 ++ [x]))).data.getLast? = x.data.getLast? := ih
      have hinner : (joinLines (b :: (L2 ++ [x]))).data ≠ [] := by
        intro h0
        rw [h0] at ih2
        rw [← ih2] at hsome
        exact absurd hsome (by decide)
      rw [List.getLast?_append_of_ne_nil _ (by simp)]
      rw [show ('\n' :: (joinLines (b :: (L2 ++ [x]))).data) =
        ['\n'] ++ (joinLines (b :: (L2 ++ [x]))).data from rfl]
      rw [List.getLast?_append_of_ne_nil _ hinner]
      exact ih2

/-- A policy line is never the empty string. -/
theorem pol_ne_empty (st : Settings) (n : String) : pol st n ≠ "" := by
  unfold pol
  split <;> decide

/-- A policy line has characters. -/
theorem pol_data_ne_nil (st : Settings) (n : String) : (pol st n).data ≠ [] := by
  unfold pol
  split <;> decide

/-- A policy line contains no newline. -/
theorem pol_noNL (st : Settings) (n : String) : '\n' ∉ (pol st n).data := by
  unfold pol
  split <;> decide

/-- A policy line ends in a slash. -/
theorem pol_getLast (st : Settings) (n : String) :
    (pol st n).data.getLast? = some '/' := by
  unfold pol
  split <;> rfl

/-- The header line contains no newline when the trimmed site URL has none. -/
theorem header_noNL (s : String) (hs : '\n' ∉ (jsTrim s).data) :
    '\n' ∉ ("# LLMs.txt generated for " ++ urlDisplay s).data := by
  rw [strDataAppend]
  intro hm
  rcases List.mem_append.mp hm with h | h
  · exact absurd h (by decide)
  · unfold urlDisplay at h
    by_cases ht : jsTrim s = ""
    · rw [if_pos ht] at h
      exact absurd h (by decide)
    · rw [if_neg ht] at h
      exact hs h

/-- The contact line contains no newline when the trimmed contact has none. -/
theorem contactLine_noNL (c : String) (hc : '\n' ∉ (jsTrim c).data) :
    '\n' ∉ ("# Contact: " ++ jsTrim c).data := by
  rw [strDataAppend]
  intro hm
  rcases List.mem_append.mp hm with h | h
  · exact absurd h (by decide)
  · exact hc h

/-- C5 counterexample: with site URL `"a\n\n\nb"` (internal newlines survive
trimming) the generated text does contain three consecutive newlines, so the
claim as stated fails. -/
theorem C5_counterexample :
    List.IsInfix ['\n', '\n', '\n']
      (generateContent "a\n\n\nb" "" defaultSettings).data := by
  refine ⟨"# LLMs.txt generated for a".data,
    "b\nUser-Agent: *\nDisallow: /\n\nUser-Agent: OpenAI\nAllow: /\n\nUser-Agent: Perplexity\nAllow: /\n\nUser-Agent: ClaudeBot\nDisallow: /\n\nUser-Agent: Google-Extended\nDisallow: /\n\nUser-Agent: CCBot\nDisallow: /".data, ?_⟩
  set_option maxRecDepth 16000 in decide

/-- C5 (amended): the generated text is the lines joined by single newlines
with no trailing newline — its last character is never a newline — and,
provided the trimmed site URL and trimmed contact contain no newline
character, the text never contains three consecutive newlines. -/
theorem C5_join_no_trailing_no_triple (s c : String) (st : Settings) :
    (generateContent s c st).data.getLast? ≠ some '\n' ∧
    ('\n' ∉ (jsTrim s).data → '\n' ∉ (jsTrim c).data →
      ¬ List.IsInfix ['\n', '\n', '\n'] (generateContent s c st).data) := by
  constructor
  · by_cases hct : jsTrim c = ""
    · rw [generateContent, generateLines_eq, contactTail, if_pos hct, List.append_nil]
      rw [show (["# LLMs.txt generated for " ++ urlDisplay s, "User-Agent: *", "Disallow: /",
        "", "User-Agent: OpenAI", pol st "OpenAI",
        "", "User-Agent: Perplexity", pol st "Perplexity",
        "", "User-Agent: ClaudeBot", pol st "ClaudeBot",
        "", "User-Agent: Google-Extended", pol st "Google-Extended",
        "", "User-Agent: CCBot", pol st "CCBot"] : List String) =
        ["# LLMs.txt generated for " ++ urlDisplay s, "User-Agent: *", "Disallow: /",
        "", "User-Agent: OpenAI", pol st "OpenAI",
        "", "User-Agent: Perplexity", pol st "Perplexity",
        "", "User-Agent: ClaudeBot", pol st "ClaudeBot",
        "", "User-Agent: Google-Extended", pol st "Google-Extended",
        "", "User-Agent: CCBot"] ++ [pol st "CCBot"] from rfl]
      rw [joinLines_getLast (pol st "CCBot") (pol_data_ne_nil st "CCBot")]
      rw [pol_getLast]
      decide
    · rw [generateContent, generateLines_eq, contactTail, if_neg hct]
      rw [show (["# LLMs.txt generated for " ++ urlDisplay s, "User-Agent: *", "Disallow: /",
        "", "User-Agent: OpenAI", pol st "OpenAI",
        "", "User-Agent: Perplexity", pol st "Perplexity",
        "", "User-Agent: ClaudeBot", pol st "ClaudeBot",
        "", "User-Agent: Google-Extended", pol st "Google-Extended",
        "", "User-Agent: CCBot", pol st "CCBot"] ++
          ["", "# Contact: " ++ jsTrim c] : List String) =
        ["# LLMs.txt generated for " ++ urlDisplay s, "User-Agent: *", "Disallow: /",
        "", "User-Agent: OpenAI", pol st "OpenAI",
        "", "User-Agent: Perplexity", pol st "Perplexity",
        "", "User-Agent: ClaudeBot", pol st "ClaudeBot",
        "", "User-Agent: Google-Extended", pol st "Google-Extended",
        "", "User-Agent: CCBot", pol st "CCBot", ""] ++
          ["# Contact: " ++ jsTrim c] from rfl]
      have hclne : ("# Contact: " ++ jsTrim c).data ≠ [] := by
        rw [strDataAppend]
        exact List.append_ne_nil_of_left_ne_nil (by decide) _
      rw [joinLines_getLast _ hclne]
      rw [strDataAppend, List.getLast?_append_of_ne_nil _ (strNeNil _ hct)]
      intro heq
      exact absurd (jsTrim_getLast_not_ws c '\n' heq) (by decide)
  · intro hs hcn
    apply not_triple_infix
    rw [generateContent]
    refine nlRunOk_joinLines _ ?_ ?_ 0 (Or.inl (by omega))
    · intro l hl
      rw [generateLines_eq] at hl
      rcases List.mem_append.mp hl with hl | hl
      · simp only [List.mem_cons, List.not_mem_nil, or_false] at hl
        rcases hl with rfl | rfl | rfl | rfl | rfl | rfl | rfl | rfl | rfl | rfl | rfl |
          rfl | rfl | rfl | rfl | rfl | rfl | rfl <;>
          first
            | exact header_noNL s hs
            | exact pol_noNL st _
            | decide
      · unfold contactTail at hl
        by_cases hct : jsTrim c = ""
        · rw [if_pos hct] at hl
          exact absurd hl (List.not_mem_nil l)
        · rw [if_neg hct] at hl
          simp only [List.mem_cons, List.not_mem_nil, or_false] at hl
          rcases hl with rfl | rfl
          · decide
          · exact contactLine_noNL c hcn
    · rw [generateLines_eq]
      unfold contactTail
      by_cases hct : jsTrim c = ""
      · rw [if_pos hct, List.append_nil]
        simp only [List.chain'_cons, List.chain'_singleton, and_true]
        exact ⟨Or.inr (by decide), Or.inr (by decide), Or.inl (by decide),
          Or.inr (by decide), Or.inl (by decide), Or.inl (pol_ne_empty st _),
          Or.inr (by decide), Or.inl (by decide), Or.inl (pol_ne_empty st _),
          Or.inr (by decide), Or.inl (by decide), Or.inl (pol_ne_empty st _),
          Or.inr (by decide), Or.inl (by decide), Or.inl (pol_ne_empty st _),
          Or.inr (by decide), Or.inl (by decide)⟩
      · rw [if_neg hct]
        simp only [List.cons_append, List.nil_append, List.chain'_cons,
          List.chain'_singleton, and_true]
        exact ⟨Or.inr (by decide), Or.inr (by decide), Or.inl (by decide),
          Or.inr (by decide), Or.inl (by decide), Or.inl (pol_ne_empty st _),
          Or.inr (by decide), Or.inl (by decide), Or.inl (pol_ne_empty st _),
          Or.inr (by decide), Or.inl (by decide), Or.inl (pol_ne_empty st _),
          Or.inr (by decide), Or.inl (by decide), Or.inl (pol_ne_empty st _),
          Or.inr (by decide), Or.inl (by decide), Or.inl (pol_ne_empty st _),
          Or.inr (strAppend_ne_empty_left _ _ (by decide))⟩

/-- C5 witness: at the default inputs the trimmed site URL and contact have
no newline, and the generated text contains no three consecutive newlines. -/
theorem C5_join_no_trailing_no_triple_witness :
    ¬ List.IsInfix ['\n', '\n', '\n']
      (generateContent "" "" defaultSettings).data :=
  (C5_join_no_trailing_no_triple "" "" defaultSettings).2 (by decide) (by decide)
